import Mathlib

/-!
Shallow embedding of the value core of the hippyvm PHP interpreter
(`hippy/objspace.py`), together with proofs settling the frozen claims
about it.

Modelling conventions:
* PHP byte strings are modelled as Lean `String`s; every byte of
  interest is ASCII, one `Char` per byte, compared by code point
  exactly as the source compares bytes.
* Machine integers are modelled as `Int`, with wrap-around written out
  explicitly where the source truncates (rpython `intmask`).
* Python's `%` on integers is flooring modulo, i.e. `Int.fmod`;
  Python's `>>` is flooring division; Python's `n & (2^k - 1)` on
  two's-complement integers equals `n mod 2^k`.
* Fallible steps (`int(...)` raising ValueError, running out of fuel)
  return `Option`.
* Functions of the repository that `objspace.py` imports but that are
  not part of the given source (the numeric-string parser
  `convert_string_to_number`, per-type coercion methods, host
  interpreter lookups) are modelled from the spec; their doc comments
  say so.
-/

namespace Hippy

/-- IEEE doubles as the comparator observes them: a finite value
(modelled as a rational), the two infinities, or NaN, which compares
unequal to everything including itself. -/
inductive PFloat where
  | fin (q : ℚ)
  | pinf
  | ninf
  | nan
deriving DecidableEq

/-- Equality test on doubles, as the host language's `==`: NaN is
equal to nothing, including itself. -/
def pfloatEq : PFloat → PFloat → Bool
  | .fin a, .fin b => a == b
  | .pinf, .pinf => true
  | .ninf, .ninf => true
  | _, _ => false

/-- Ordering test on doubles, as the host language's `<`: NaN is below
nothing and above nothing. -/
def pfloatLt : PFloat → PFloat → Bool
  | .fin a, .fin b => decide (a < b)
  | .fin _, .pinf => true
  | .ninf, .fin _ => true
  | .ninf, .pinf => true
  | _, _ => false

/-- Array keys: integers or byte strings (`W_IntObject` or string
objects in the source). -/
inductive PKey where
  | int (i : Int)
  | str (s : String)
deriving DecidableEq

/-- Runtime values: the discriminated union of `objspace.py`
restricted to the kinds the claims exercise. Arrays and objects carry
a numeric identity tag modelling Python object identity (the
comparator tests aggregates with `is`); `ref` is a `W_Reference`
cell, an index into a store of single-value slots, which is how
cyclic aggregates arise. -/
inductive Value where
  | int (i : Int)
  | float (f : PFloat)
  | str (s : String)
  | bool (b : Bool)
  | null
  | arr (id : Nat) (entries : List (PKey × Value))
  | obj (id : Nat) (cls : Nat) (attrs : List (String × Value))
  | ref (addr : Nat)

/-- Store backing the reference cells. -/
abbrev Store := Nat → Value

/-- One-step unwrap of a reference cell (`w_obj.deref()` in the
source); the identity on every other value. -/
def deref (σ : Store) : Value → Value
  | .ref a => σ a
  | v => v

/-- Type tags in source order (`tp_int = 0`, `tp_float = 1`,
`tp_str = 2`, `tp_array = 3`, `tp_null = 4`, `tp_bool = 5`,
`tp_object = 6`, lines 115-118). References have no tag in the
source; they are always deref'd before `tp` is read, and the
embedding gives them an out-of-range code. -/
def tpOf : Value → Nat
  | .int _ => 0
  | .float _ => 1
  | .str _ => 2
  | .arr _ _ => 3
  | .null => 4
  | .bool _ => 5
  | .obj _ _ _ => 6
  | .ref _ => 100

/-- Python object identity (`is`) as the comparator uses it:
aggregates are identical when their identity tags agree; the
singletons `w_Null`, `w_True`, `w_False` are identical when equal;
other leaves are conservatively distinct (which the comparator cannot
distinguish from equality on leaves). -/
def phpIs : Value → Value → Bool
  | .arr i _, .arr j _ => i == j
  | .obj i _ _, .obj j _ _ => i == j
  | .null, .null => true
  | .bool a, .bool b => a == b
  | _, _ => false

/-- Test for NaN payloads, used to state the reflexivity claim. -/
def isNaNV : Value → Bool
  | .float .nan => true
  | _ => false

/-- Test for reference cells. -/
def isRefV : Value → Bool
  | .ref _ => true
  | _ => false

/-- Test for aggregates (`tp == tp_array or tp == tp_object`). -/
def isAggregate (v : Value) : Bool := tpOf v == 3 || tpOf v == 6

/-- Entry list of an array value. -/
def entriesOf : Value → List (PKey × Value)
  | .arr _ es => es
  | _ => []

/-- Attribute list of an object value. -/
def attrsOf : Value → List (String × Value)
  | .obj _ _ a => a
  | _ => []

/-- Class identity of an object value. -/
def clsOf : Value → Nat
  | .obj _ c _ => c
  | _ => 0

/-- Length of an array value (`w_obj.arraylen()`). -/
def arraylen (v : Value) : Nat := (entriesOf v).length

/-- Integer payload, used where the source calls `int_w` on a value it
knows is an `Int`. -/
def int_w : Value → Int
  | .int i => i
  | _ => 0

/-- Double payload (`float_w`); integers widen to doubles. -/
def float_w : Value → PFloat
  | .float f => f
  | .int i => .fin (i : ℚ)
  | _ => .fin 0

/-- String payload, used where the source calls `str_w` on a value it
knows is a string. -/
def str_w : Value → String
  | .str s => s
  | _ => ""

/-- Lookup of a key in an array's entry list; PHP array keys are
unique, so the first match is the match. -/
def arrFind (es : List (PKey × Value)) (k : PKey) : Option Value :=
  (es.find? (fun e => e.1 == k)).map (fun e => e.2)

/-- Membership test used by the comparator (`isset_index`). -/
def isset_index (es : List (PKey × Value)) (k : PKey) : Bool :=
  (arrFind es k).isSome

/-- Item read (`getitem`): an undefined index yields Null. -/
def arrGetItem (es : List (PKey × Value)) (k : PKey) : Value :=
  (arrFind es k).getD .null

/-- Lookup of an attribute name in an object's attribute list. -/
def attrFind (attrs : List (String × Value)) (name : String) : Option Value :=
  (attrs.find? (fun e => e.1 == name)).map (fun e => e.2)

/-- Three-way comparison helper `my_cmp` (lines 47-53): 0 on equality,
-1 when `ignore_order` is set or the left side is smaller, else 1. The
equality and ordering tests of the compared host values are passed in
as booleans. -/
def my_cmp (eqb ltb ignore_order : Bool) : Int :=
  if eqb then 0 else if ignore_order || ltb then -1 else 1

/-- Byte-wise lexicographic ordering of byte strings, Python's `<` on
`str`. -/
def byteStrLt : List Char → List Char → Bool
  | [], [] => false
  | [], _ :: _ => true
  | _ :: _, [] => false
  | a :: as, b :: bs => if a.toNat = b.toNat then byteStrLt as bs else decide (a.toNat < b.toNat)

/-- Code point of the first byte of a string, `ord(s[0])` on a
nonempty string. -/
def ord0 (s : String) : Nat := (s.data.headD (Char.ofNat 0)).toNat

/-- PHP_WHITESPACE (line 36). -/
def PHP_WHITESPACE : List Char := [' ', '\t', '\n', '\r', '\x0b', '\x00']

/-- Scanner for a run of decimal digits: returns the accumulated
value, the number of digits consumed, and the rest of the input. -/
def scanDigits : List Char → Nat → Nat → Nat × Nat × List Char
  | c :: cs, acc, k =>
    if '0' ≤ c ∧ c ≤ '9' then scanDigits cs (10 * acc + (c.toNat - 48)) (k + 1)
    else (acc, k, c :: cs)
  | [], acc, k => (acc, k, [])

/-- Result of the numeric-string parser: an integer or a double. -/
inductive NumVal where
  | int (i : Int)
  | flt (q : ℚ)

/-- Wrap a parsed number as a runtime value. -/
def numToValue : NumVal → Value
  | .int i => .int i
  | .flt q => .float (.fin q)

/-- Power of ten with an integer exponent, as a rational. -/
def pow10 (e : Int) : ℚ :=
  if 0 ≤ e then (10 : ℚ) ^ e.toNat else 1 / (10 : ℚ) ^ (-e).toNat

/-- Value of a parsed decimal: sign, integer digits, fraction digits
with their count, and decimal exponent. -/
def floatVal (sgn : Int) (ip fp fk : Nat) (ex : Int) : ℚ :=
  (sgn : ℚ) * ((ip : ℚ) + (fp : ℚ) / (10 : ℚ) ^ fk) * pow10 ex

/-- Scanner for an exponent part `e[+-]?digits`; when no digit
follows the marker, nothing is consumed. -/
def scanExp : List Char → Int × List Char
  | 'e' :: r =>
    let (es, r1) := match r with
      | '-' :: rr => ((-1 : Int), rr)
      | '+' :: rr => ((1 : Int), rr)
      | rr => ((1 : Int), rr)
    let (ev, ek, r2) := scanDigits r1 0 0
    if ek = 0 then (0, 'e' :: r) else (es * (ev : Int), r2)
  | r => (0, r)

/-- Modelled from the spec: the numeric-string parser
`hippy.objects.convert.convert_string_to_number`, which is imported by
`objspace.py` but is not part of the given source. Per the spec:
leading whitespace skipped; optional sign; decimal digits with
optional single fraction dot and optional exponent `e[+-]?digits`;
the scan stops at the first non-matching byte; an empty digit body
yields Int 0. Returns the parsed number together with the
fully-consumed flag used by loose comparison. -/
def convert_string_to_number (s : String) : NumVal × Bool :=
  let cs0 := s.data.dropWhile (fun c => PHP_WHITESPACE.contains c)
  let sgn : Int := match cs0 with
    | '-' :: _ => -1
    | _ => 1
  let cs1 := match cs0 with
    | '-' :: r => r
    | '+' :: r => r
    | r => r
  let (ip, ik, cs2) := scanDigits cs1 0 0
  match cs2 with
  | '.' :: r =>
    let (fp, fk, cs3) := scanDigits r 0 0
    if ik + fk = 0 then (.int 0, false)
    else
      let (ex, cs4) := scanExp cs3
      (.flt (floatVal sgn ip fp fk ex), cs4.isEmpty)
  | _ =>
    if ik = 0 then (.int 0, false)
    else
      let (ex, cs4) := scanExp cs2
      if cs4 == cs2 then (.int (sgn * (ip : Int)), cs2.isEmpty)
      else (.flt (floatVal sgn ip 0 0 ex), cs4.isEmpty)

/-- Modelled from the spec: `as_number` of the per-type value methods
(spec section 4.1). Null maps to Int 0; booleans to 0 or 1; numbers to
themselves; strings through the numeric-string parser; arrays to 0
when empty else 1; objects take the host-defined projection, modelled
as 1. Operands are deref'd before this is called. -/
def as_number : Value → Value
  | .null => .int 0
  | .bool b => .int (if b then 1 else 0)
  | .int i => .int i
  | .float f => .float f
  | .str s => numToValue (convert_string_to_number s).1
  | .arr _ es => .int (if es.isEmpty then 0 else 1)
  | .obj _ _ _ => .int 1
  | .ref _ => .null

/-- Modelled from the spec: `is_true` of the per-type value methods
(spec section 4.1). -/
def is_true : Value → Bool
  | .bool b => b
  | .null => false
  | .int i => i != 0
  | .float (.fin q) => q != 0
  | .float .nan => false
  | .float _ => true
  | .str s => !(s == "") && !(s == "0")
  | .arr _ es => !es.isEmpty
  | .obj _ _ _ => true
  | .ref _ => false

/-- Python's `%` on integers, which is flooring modulo: `Int.fmod`
(the core function satisfying `fmod x y + fdiv x y * y = x` with
`fdiv` the flooring division). -/
def pyMod (l r : Int) : Int := Int.fmod l r

/-- ObjSpace._mod (lines 482-491): right operand 0 warns "Division by
zero" and yields false; right operand -1 yields Int 0; otherwise the
host remainder is corrected by one divisor when it is nonzero and the
operand signs disagree. The first component carries the emitted warn
diagnostics. -/
def php_mod (left right : Int) : List String × Value :=
  if right = 0 then (["Division by zero"], .bool false)
  else if right = -1 then ([], .int 0)
  else
    let z := pyMod left right
    let z1 := if z ≠ 0 ∧ ((left < 0 ∧ 0 < right) ∨ (0 < left ∧ right < 0)) then z - right
              else z
    ([], .int z1)

/-- Byte-wise OR of two bytes. -/
def byteOr (a b : Char) : Char := Char.ofNat (a.toNat ||| b.toNat)

/-- Byte-wise AND of two bytes. -/
def byteAnd (a b : Char) : Char := Char.ofNat (a.toNat &&& b.toNat)

/-- Byte-wise XOR of two bytes. -/
def byteXor (a b : Char) : Char := Char.ofNat (a.toNat ^^^ b.toNat)

/-- ObjSpace.or_string (lines 493-504): after swapping so the left
side is the longer one, OR the overlap byte by byte and append the
longer side's tail unchanged. -/
def or_string (wl wr : String) : String :=
  if wl.length < wr.length then
    String.mk (List.zipWith byteOr wr.data wl.data ++ wr.data.drop wl.length)
  else
    String.mk (List.zipWith byteOr wl.data wr.data ++ wl.data.drop wr.length)

/-- The string arm of _new_bitwise for operator.and_ (lines
1108-1116): byte-wise AND over the first min-length bytes; the longer
tail is dropped. -/
def and_string (wl wr : String) : String :=
  String.mk (List.zipWith byteAnd wl.data wr.data)

/-- The string arm of _new_bitwise for operator.xor (lines 1108-1116):
byte-wise XOR over the first min-length bytes; the longer tail is
dropped. -/
def xor_string (wl wr : String) : String :=
  String.mk (List.zipWith byteXor wl.data wr.data)

/-- MASK_31_63 (line 37): 31 on hosts whose native int is 32 bits,
63 on 64-bit hosts. -/
def MASK_31_63 (is32 : Bool) : Nat := if is32 then 31 else 63

/-- Width of the native machine word. -/
def wordW (is32 : Bool) : Nat := if is32 then 32 else 64

/-- Python bitwise AND with an all-ones mask `2^k - 1`: on
two's-complement integers this is exactly reduction mod `2^k`
(a nonnegative result below the power of two). -/
def pyMaskAnd (n : Int) (mask : Nat) : Int := n % ((mask : Int) + 1)

/-- rpython `intmask`: truncation of an integer to the signed machine
word of width w. -/
def intmask (w : Nat) (z : Int) : Int :=
  (z + 2 ^ (w - 1)) % 2 ^ w - 2 ^ (w - 1)

/-- ObjSpace.lshift (lines 515-519) on the integer projections of its
operands: mask the count, shift left (multiply by the power of two),
truncate to the machine word. -/
def lshift (is32 : Bool) (left right : Int) : Int :=
  intmask (wordW is32) (left * 2 ^ (pyMaskAnd right (MASK_31_63 is32)).toNat)

/-- ObjSpace.rshift (lines 521-525): Python's `>>` is the arithmetic
(flooring) shift, i.e. flooring division by the power of two. -/
def rshift (is32 : Bool) (left right : Int) : Int :=
  intmask (wordW is32) (Int.fdiv left (2 ^ (pyMaskAnd right (MASK_31_63 is32)).toNat))

/-- Python's `int(str)`: an optional single sign followed by one or
more decimal digits and nothing else; any other shape raises
ValueError, modelled as none. -/
def pyIntOfString (cs : List Char) : Option Int :=
  let p := match cs with
    | '-' :: r => ((-1 : Int), r)
    | '+' :: r => ((1 : Int), r)
    | r => ((1 : Int), r)
  let (v, k, rest) := scanDigits p.2 0 0
  if k = 0 ∨ rest ≠ [] then none else some (p.1 * (v : Int))

/-- ObjSpace._force_int_from_str (lines 878-895): skip leading PHP
whitespace, then collect every byte that is a decimal digit or a sign
- in whatever position - until the first other byte; an empty
collection yields 0, otherwise the collection is handed to `int()`
(whose ValueError is modelled as none). -/
def force_int_from_str (s : String) : Option Int :=
  let cs := s.data.dropWhile (fun c => PHP_WHITESPACE.contains c)
  let decstr := cs.takeWhile (fun c => decide (('0' ≤ c ∧ c ≤ '9') ∨ c = '-' ∨ c = '+'))
  if decstr = [] then some 0 else pyIntOfString decstr

/-- TYPENAMES (lines 121-124), indexed by type tag in source order. -/
def TYPENAMES : List String :=
  ["integer", "double", "string", "array", "NULL", "boolean",
   "object", "resource", "resource", "resource",
   "resource", "resource", "constant", "delayed constant",
   "resource", "resource"]

/-- Python str.lower() on a byte string, mapping each ASCII letter to
its lowercase form. -/
def strLower (s : String) : String := String.mk (s.data.map Char.toLower)

/-- ObjSpace.get_type_name (lines 863-864): `TYPENAMES[tp].lower()`. -/
def get_type_name (tp : Nat) : String := strLower (TYPENAMES.getD tp "")

/-- ObjSpace.gettypename (lines 442-447): instances render as
"instance of " plus the class name (supplied by the host class table);
every other value renders through the lowered TYPENAMES entry. -/
def gettypename (clsNames : Nat → String) (σ : Store) (w : Value) : String :=
  match deref σ w with
  | .obj _ cls _ => "instance of " ++ clsNames cls
  | v => get_type_name (tpOf v)

/-- ObjSpace.is_valid_clsname (lines 918-930). -/
def is_valid_clsname (name : String) : Bool :=
  match name.data with
  | [] => false
  | c :: rest =>
    decide (('a' ≤ c ∧ c ≤ 'z') ∨ ('A' ≤ c ∧ c ≤ 'Z') ∨ c = '_' ∨ c = '\\') &&
    rest.all (fun d => decide (('a' ≤ d ∧ d ≤ 'z') ∨ ('A' ≤ d ∧ d ≤ 'Z') ∨ d = '_' ∨
                               ('0' ≤ d ∧ d ≤ '9') ∨ d = '\\'))

/-- Body of the iteration loop of ObjSpace.slice (lines 303-323):
walk the entries with a running position `idx` and a running fresh
integer key `nextIdx`; keep an entry when its position lies in
[start, start + shift); with keep_keys the original key survives, with
keep_str_keys only string keys survive, otherwise the kept entry is
renumbered with the next fresh integer key. -/
def sliceRec (start shift : Int) (keepKeys keepStrKeys : Bool) :
    List (PKey × Value) → Int → Int → List (PKey × Value)
  | [], _, _ => []
  | (k, v) :: rest, idx, nextIdx =>
    if start ≤ idx ∧ idx < start + shift then
      if keepKeys then
        (k, v) :: sliceRec start shift keepKeys keepStrKeys rest (idx + 1) nextIdx
      else if keepStrKeys then
        match k with
        | .str s =>
          (.str s, v) :: sliceRec start shift keepKeys keepStrKeys rest (idx + 1) nextIdx
        | _ =>
          (.int nextIdx, v) :: sliceRec start shift keepKeys keepStrKeys rest (idx + 1) (nextIdx + 1)
      else
        (.int nextIdx, v) :: sliceRec start shift keepKeys keepStrKeys rest (idx + 1) (nextIdx + 1)
    else sliceRec start shift keepKeys keepStrKeys rest (idx + 1) nextIdx

/-- ObjSpace.slice (lines 290-324) on the array's entry list: empty
results for a zero shift, an empty array, or a start beyond the
length; a negative start counts from the end; a negative shift means
"until shift before the end"; then the iteration loop collects the
pairs (the result models new_array_from_pairs of the collected
list). -/
def phpSlice (arr : List (PKey × Value)) (start shift : Int)
    (keepKeys keepStrKeys : Bool) : List (PKey × Value) :=
  if shift = 0 then []
  else if arr.length = 0 then []
  else if (arr.length : Int) < start then []
  else
    let start1 := if start < 0 then (arr.length : Int) + start else start
    let shift1 := if shift < 0 then (arr.length : Int) + shift - start1 else shift
    sliceRec start1 shift1 keepKeys keepStrKeys arr 0 0

/-- Renumbering of a value list with consecutive integer keys starting
at n, used to state the claim that slice without key preservation
renumbers from 0. -/
def renumberFrom (n : Int) : List Value → List (PKey × Value)
  | [] => []
  | v :: vs => (.int n, v) :: renumberFrom (n + 1) vs

/-- Values kept by the slice loop, in insertion order, without any key
bookkeeping; companion definition for the renumbering claim. -/
def keptRec (start shift : Int) : List (PKey × Value) → Int → List Value
  | [], _ => []
  | (_, v) :: rest, idx =>
    if start ≤ idx ∧ idx < start + shift then v :: keptRec start shift rest (idx + 1)
    else keptRec start shift rest (idx + 1)

/-- Values selected by slice, with the same guards and index
normalization as `phpSlice`, forgetting keys; companion definition for
the renumbering claim. -/
def sliceKeptValues (arr : List (PKey × Value)) (start shift : Int) : List Value :=
  if shift = 0 then []
  else if arr.length = 0 then []
  else if (arr.length : Int) < start then []
  else
    let start1 := if start < 0 then (arr.length : Int) + start else start
    let shift1 := if shift < 0 then (arr.length : Int) + shift - start1 else shift
    keptRec start1 shift1 arr 0

/-- Host-side callback machinery living outside `objspace.py` (the
interpreter's function table, class lookup with static/instance method
resolution and visibility checks, the invokable capability of closure
objects, and the string projection of values), modelled as abstract
functions; resolved invocables are abstract handles. -/
structure CallbackHost where
  lookupFunction : String → Option Nat
  callbackFromClass : String → String → Except String Nat
  callbackFromInstance : Nat → String → Except String Nat
  getCallable : Nat → Option Nat
  strW : Value → String

/-- Position of the first "::" in a byte string, if any. -/
def findColonColon : List Char → Option Nat
  | ':' :: ':' :: _ => some 0
  | _ :: rest => (findColonColon rest).map (fun p => p + 1)
  | [] => none

/-- Split of a callback string at its first "::" separator. -/
def splitDoubleColon (s : String) : Option (String × String) :=
  (findColonColon s.data).map
    (fun p => (String.mk (s.data.take p), String.mk (s.data.drop (p + 2))))

/-- ObjSpace._get_callback_from_string (lines 992-1002): a "Cls::meth"
shape resolves through the class machinery, a plain name through the
function table, and an unknown name raises InvalidCallback. -/
def get_callback_from_string (h : CallbackHost) (name : String) : Except String Nat :=
  match splitDoubleColon name with
  | some p => h.callbackFromClass p.1 p.2
  | none =>
    match h.lookupFunction name with
    | some f => .ok f
    | none => .error ("function '" ++ name ++ "' not found or invalid function name")

/-- ObjSpace._get_callback (lines 1035-1057): strings resolve by name;
arrays must have exactly two members, the first being an instance or a
valid class name and the second the method name; invokable objects
return their bound callable; everything else raises
InvalidCallback. -/
def get_callback_inner (h : CallbackHost) (σ : Store) (w : Value) : Except String Nat :=
  if tpOf w = 2 then get_callback_from_string h (str_w w)
  else if tpOf w = 3 then
    if (entriesOf w).length ≠ 2 then .error "array must have exactly two members"
    else
      let wInstance := deref σ (arrGetItem (entriesOf w) (.int 0))
      match wInstance with
      | .obj oid _ _ => h.callbackFromInstance oid (h.strW (arrGetItem (entriesOf w) (.int 1)))
      | _ =>
        let clsname := h.strW wInstance
        if !is_valid_clsname clsname then
          .error "first array member is not a valid class name or object"
        else h.callbackFromClass clsname (h.strW (arrGetItem (entriesOf w) (.int 1)))
  else
    match w with
    | .obj oid _ _ =>
      match h.getCallable oid with
      | some c => .ok c
      | none => .error "no array or string given"
    | _ => .error "no array or string given"

/-- ObjSpace.get_callback (lines 1025-1033): the InvalidCallback
message is turned into a PHP-style warning naming the function and
parameter position - emitted only when give_warning is set - and the
null invocable (none) is returned. The second component carries the
emitted warnings. -/
def get_callback (h : CallbackHost) (σ : Store) (fname : String) (argNo : Int)
    (w : Value) (giveWarning : Bool) : Option Nat × List String :=
  match get_callback_inner h σ w with
  | .ok c => (some c, [])
  | .error msg =>
    (none,
     if giveWarning then
       [fname ++ "() expects parameter " ++ toString argNo ++ " to be a valid callback, " ++ msg]
     else [])

/-- Entries of the iterative aggregate comparator's work stack
(`obj_st` paired with `strict_st`): a pair still to be compared
together with its strictness, or the deferred-inequality sentinel that
the source pushes as `(None, None)`. -/
inductive StackEntry where
  | pair (l r : Value) (strict : Bool)
  | sentinel (strict : Bool)

/-- Inner while-loop of the array branch of _compare_aggregates
(lines 698-756). `cmpLeaf` is the recursive call into _compare at the
current strictness; `rightEs` is the right array's entry list, walked
both in parallel (`ls`/`rs`) and by key lookup; `accIo` accumulates
the direct pushes onto the work stack done in ignore_order mode (most
recent first); `newSt` mirrors the lazily allocated `new_st` list, in
iteration order. The result is the fuel-exhaustion marker, an early
return from the whole aggregate comparison (`Sum.inl`), or the block
of entries to push onto the work stack (`Sum.inr`). -/
def arrIter (σ : Store) (cmpLeaf : Value → Value → Option Int)
    (strict io : Bool) (rightEs : List (PKey × Value)) :
    List (PKey × Value) → List (PKey × Value) →
    List StackEntry → Option (List StackEntry) → Option (Sum Int (List StackEntry))
  | [], _, accIo, newSt => some (.inr (newSt.getD [] ++ accIo))
  | _ :: _, [], _, _ => none
  | (k, lv0) :: ls, (rk, rv0) :: rs, accIo, newSt =>
    let fast : Bool := match k, rk with
      | .int a, .int b => a == b
      | .str a, .str b => a == b
      | _, _ => false
    if !fast && !isset_index rightEs k then
      if io then some (.inl (-1))
      else some (.inr ((newSt.getD [] ++ [.sentinel strict]) ++ accIo))
    else
      let rv1 := if fast then rv0 else arrGetItem rightEs k
      let lv := deref σ lv0
      let rv := deref σ rv1
      if phpIs lv rv then arrIter σ cmpLeaf strict io rightEs ls rs accIo newSt
      else if isAggregate lv && isAggregate rv then
        if io then arrIter σ cmpLeaf strict io rightEs ls rs (.pair lv rv strict :: accIo) newSt
        else arrIter σ cmpLeaf strict io rightEs ls rs accIo
               (some (newSt.getD [] ++ [.pair lv rv strict]))
      else
        match cmpLeaf lv rv with
        | none => none
        | some c =>
          if c ≠ 0 then
            if io || newSt.isNone then some (.inl c)
            else some (.inr ((newSt.getD [] ++ [.pair lv rv strict]) ++ accIo))
          else arrIter σ cmpLeaf strict io rightEs ls rs accIo newSt

/-- Inner for-loop of the object branch of _compare_aggregates
(lines 794-850), walking both attribute lists in parallel. On a name
mismatch the right object is probed by name; a failed probe returns -1
when ignoring order or when no deferred work exists, and otherwise
pushes the parallel pair and falls through to process it inline,
exactly as the source's KeyError handler does. Children pushed from
this loop always carry strictness False (the source appends False to
the strict stack here). -/
def objIter (σ : Store) (cmpLeaf : Value → Value → Option Int)
    (io : Bool) (rightAttrs : List (String × Value)) :
    List (String × Value) → List (String × Value) →
    List StackEntry → Option (List StackEntry) → Option (Sum Int (List StackEntry))
  | [], _, accIo, newSt => some (.inr (newSt.getD [] ++ accIo))
  | _ :: _, [], _, _ => none
  | (key, lv0) :: ls, (rk, rv0) :: rs, accIo, newSt =>
    let lookup : Option Value := if key == rk then some rv0 else attrFind rightAttrs key
    if lookup.isNone && (io || newSt.isNone) then some (.inl (-1))
    else
      let newSt1 := if lookup.isNone then some (newSt.getD [] ++ [.pair lv0 rv0 false])
                    else newSt
      let lv := deref σ lv0
      let rv := deref σ (lookup.getD rv0)
      if phpIs lv rv then objIter σ cmpLeaf io rightAttrs ls rs accIo newSt1
      else if isAggregate lv && isAggregate rv then
        if io then objIter σ cmpLeaf io rightAttrs ls rs (.pair lv rv false :: accIo) newSt1
        else objIter σ cmpLeaf io rightAttrs ls rs accIo
               (some (newSt1.getD [] ++ [.pair lv rv false]))
      else
        match cmpLeaf lv rv with
        | none => none
        | some c =>
          if c ≠ 0 then
            if io || newSt1.isNone then some (.inl c)
            else some (.inr ((newSt1.getD [] ++ [.pair lv rv false]) ++ accIo))
          else objIter σ cmpLeaf io rightAttrs ls rs accIo newSt1

/-- Requests processed by the fueled comparator: a _compare call or a
_compare_aggregates work-stack state. -/
inductive Req where
  | cmp (l r : Value) (strict io : Bool)
  | agg (io : Bool) (st : List StackEntry)

/-- Fueled interpreter for ObjSpace._compare (lines 530-646) and
ObjSpace._compare_aggregates (lines 648-857). Each recursive step
consumes one unit of fuel; none means the fuel ran out, so a some
result is a result the source returns. The branches follow the
source's dispatch order literally; object custom comparison is
modelled from the spec as always signalling InlineObjectComparison
(the default of builtin instances), so the generic path below it is
taken. -/
def phpRun (σ : Store) : Nat → Req → Option Int
  | 0, _ => none
  | fuel + 1, .cmp l r strict io =>
    let wl := deref σ l
    let wr := deref σ r
    let lt := tpOf wl
    let rt := tpOf wr
    if strict && lt != rt then some 1
    else if lt == 1 && rt == 1 then
      some (my_cmp (pfloatEq (float_w wl) (float_w wr)) (pfloatLt (float_w wl) (float_w wr)) io)
    else if lt == 0 && rt == 1 then
      some (my_cmp (pfloatEq (float_w wl) (float_w wr)) (pfloatLt (float_w wl) (float_w wr)) io)
    else if lt == 1 && rt == 0 then
      some (my_cmp (pfloatEq (float_w wl) (float_w wr)) (pfloatLt (float_w wl) (float_w wr)) io)
    else if lt == 0 && rt == 0 then
      some (my_cmp (int_w wl == int_w wr) (decide (int_w wl < int_w wr)) io)
    else if lt == 3 && rt == 3 then
      if phpIs wl wr then some 0
      else if arraylen wl < arraylen wr then some (-1)
      else if arraylen wr < arraylen wl then some 1
      else phpRun σ fuel (.agg io [.pair wl wr strict])
    else if lt == 4 && rt == 4 then some 0
    else if lt == 4 && rt == 5 then some (if is_true wr then -1 else 0)
    else if lt == 5 && rt == 4 then some (if is_true wl then 1 else 0)
    else if lt == 5 && rt == 5 then
      some (my_cmp (is_true wl == is_true wr) (!is_true wl && is_true wr) io)
    else if lt == 2 && rt == 2 then
      let lstr := str_w wl
      let rstr := str_w wr
      if !strict then
        if lstr.length == 1 && rstr.length == 1 then
          some (my_cmp (ord0 lstr == ord0 rstr) (decide (ord0 lstr < ord0 rstr)) io)
        else
          let pr := convert_string_to_number rstr
          if pr.2 then
            let pl := convert_string_to_number lstr
            if pl.2 then phpRun σ fuel (.cmp (numToValue pl.1) (numToValue pr.1) false io)
            else some (my_cmp (lstr == rstr) (byteStrLt lstr.data rstr.data) io)
          else some (my_cmp (lstr == rstr) (byteStrLt lstr.data rstr.data) io)
      else some (my_cmp (lstr == rstr) (byteStrLt lstr.data rstr.data) io)
    else if lt == 4 && rt == 2 then
      some (my_cmp ("" == str_w wr) (byteStrLt [] (str_w wr).data) io)
    else if lt == 2 && rt == 4 then
      some (my_cmp (str_w wl == "") (byteStrLt (str_w wl).data []) io)
    else if lt == 6 && rt == 4 then some 1
    else if lt == 4 && rt == 6 then some (-1)
    else if lt == 6 && rt == 6 then
      if phpIs wl wr then some 0
      else phpRun σ fuel (.agg io [.pair wl wr strict])
    else if lt == 4 then some (if is_true wr then -1 else 0)
    else if rt == 4 then some (if is_true wl then 1 else 0)
    else if lt == 5 || rt == 5 then
      some (my_cmp (is_true wl == is_true wr) (!is_true wl && is_true wr) io)
    else if lt == 3 then some 1
    else if rt == 3 then some (-1)
    else if lt == 6 then some 1
    else if rt == 6 then some (-1)
    else phpRun σ fuel (.cmp (as_number wl) (as_number wr) false io)
  | fuel + 1, .agg io st =>
    match st with
    | [] => some 0
    | .sentinel _ :: _ => some 1
    | .pair wl wr strict :: rest =>
      let lt := tpOf wl
      let rt := tpOf wr
      if lt == 3 && rt == 3 then
        if phpIs wl wr then phpRun σ fuel (.agg io rest)
        else
          let les := entriesOf wl
          let res := entriesOf wr
          if les.length < res.length then some (-1)
          else if res.length < les.length then some 1
          else
            match arrIter σ (fun a b => phpRun σ fuel (.cmp a b strict io))
                    strict io res les res [] none with
            | none => none
            | some (.inl c) => some c
            | some (.inr pushes) => phpRun σ fuel (.agg io (pushes ++ rest))
      else if lt == 6 && rt == 6 then
        if phpIs wl wr then phpRun σ fuel (.agg io rest)
        else if strict || clsOf wl != clsOf wr then some 1
        else
          let la := attrsOf wl
          let ra := attrsOf wr
          if la.length < ra.length then some (-1)
          else if ra.length < la.length then some 1
          else
            match objIter σ (fun a b => phpRun σ fuel (.cmp a b strict io))
                    io ra la ra [] none with
            | none => none
            | some (.inl c) => some c
            | some (.inr pushes) => phpRun σ fuel (.agg io (pushes ++ rest))
      else
        match phpRun σ fuel (.cmp wl wr strict io) with
        | none => none
        | some c => if c ≠ 0 then some c else phpRun σ fuel (.agg io rest)

/-- Fueled ObjSpace._compare: none means the fuel ran out before the
source would have returned. -/
def phpCompare (σ : Store) (fuel : Nat) (l r : Value) (strict io : Bool) : Option Int :=
  phpRun σ fuel (.cmp l r strict io)

/-- Fueled ObjSpace._compare_aggregates on a work-stack state. -/
def phpCompareAgg (σ : Store) (fuel : Nat) (io : Bool) (st : List StackEntry) : Option Int :=
  phpRun σ fuel (.agg io st)

/-- Test for object values, used to state the type-name claim. -/
def isObjV : Value → Bool
  | .obj _ _ _ => true
  | _ => false

/-- First of the two cyclic arrays: an array whose single entry is a
reference cell pointing back to the array itself. -/
def cycA : Value := .arr 100 [(.int 0, .ref 0)]

/-- Second cyclic array, a distinct object with the same shape. -/
def cycB : Value := .arr 101 [(.int 0, .ref 1)]

/-- Store tying the two reference cells back to their arrays. -/
def cycStore : Store := fun a => if a = 0 then cycA else if a = 1 then cycB else .null

/-- Processing the cyclic pair leaves the work stack in exactly the
same single-pair state, consuming one unit of fuel: so the comparison
never ends with any amount of fuel. -/
lemma cyc_agg_stuck : ∀ fuel,
    phpCompareAgg cycStore fuel false [.pair cycA cycB false] = none := by
  intro fuel
  induction fuel with
  | zero => rfl
  | succ n ih => exact ih

/-- Claim C1: loose compare("10","9") promotes both numeric strings
and returns 1; strict compare on the same pair skips the promotion,
compares the bytes lexicographically, and returns -1. -/
theorem claim1_compare_10_9 : ∀ fuel : Nat,
    phpCompare (fun _ => .null) (fuel + 2) (.str "10") (.str "9") false false = some 1 ∧
    phpCompare (fun _ => .null) (fuel + 2) (.str "10") (.str "9") true false = some (-1) := by
  intro fuel
  exact ⟨rfl, rfl⟩

/-- Claim C2: on two distinct arrays that each contain a reference
cell pointing back to the array itself, the comparator never returns:
every amount of fuel is exhausted, because one pass over the work
stack reproduces exactly the same single-pair stack (so the stack does
stay bounded, but the loop never exits, contradicting the claimed
"terminates and returns 0"). -/
theorem claim2_cyclic_compare_diverges :
    (∀ fuel, phpCompare cycStore fuel cycA cycB false false = none) ∧
    (∀ fuel, phpCompareAgg cycStore (fuel + 1) false [.pair cycA cycB false] =
             phpCompareAgg cycStore fuel false [.pair cycA cycB false]) := by
  constructor
  · intro fuel
    cases fuel with
    | zero => rfl
    | succ n => exact cyc_agg_stuck n
  · intro fuel
    rfl

/-- Claim C8: force_int on the string "1-2" does not stop at the
first byte that breaks the sign-then-digits shape; the scan collects
"1-2" whole and int() then raises ValueError (modelled as none), where
the claim promises the value 1 of the leading digit run "1".
Well-formed inputs and an empty digit run behave as claimed. -/
theorem claim8_force_int_from_str :
    force_int_from_str "1-2" = none ∧
    force_int_from_str " 42x" = some 42 ∧
    force_int_from_str "x" = some 0 := by
  exact ⟨rfl, rfl, rfl⟩

/-- Claim C9, counterexample: get_type_name lowercases the TYPENAMES
entry, so the null tag renders as "null", not the claimed "NULL". -/
theorem claim9_counterexample : get_type_name 4 ≠ "NULL" := by decide

/-- Claim C9 as amended: get_type_name maps the sixteen tags in tag
order to integer, double, string, array, null (lowercased from the
table's NULL), boolean, object, resource (eight times in the resource
positions), constant and delayed constant; and gettypename agrees with
it on every non-object value while objects render as "instance of"
plus the class name. -/
theorem claim9_type_names :
    (List.range 16).map get_type_name =
      ["integer", "double", "string", "array", "null", "boolean",
       "object", "resource", "resource", "resource",
       "resource", "resource", "constant", "delayed constant",
       "resource", "resource"] ∧
    (∀ (clsNames : Nat → String) (σ : Store) (w : Value),
      isRefV w = false → isObjV w = false →
      gettypename clsNames σ w = get_type_name (tpOf w)) ∧
    (∀ (clsNames : Nat → String) (σ : Store) (id cls : Nat)
       (attrs : List (String × Value)),
      gettypename clsNames σ (.obj id cls attrs) = "instance of " ++ clsNames cls) := by
  refine ⟨by decide, ?_, ?_⟩
  · intro clsNames σ w h1 h2
    cases w
    · rfl
    · rfl
    · rfl
    · rfl
    · rfl
    · rfl
    · simp [isObjV] at h2
    · simp [isRefV] at h1
  · intro clsNames σ id cls attrs
    rfl

/-- Witness for claim C9's amended theorem at a concrete value. -/
theorem claim9_type_names_witness :
    gettypename (fun _ => "Foo") (fun _ => .null) (.int 5) = "integer" := by
  have h := claim9_type_names.2.1 (fun _ => "Foo") (fun _ => .null) (.int 5) rfl rfl
  have h2 : get_type_name (tpOf (.int 5)) = "integer" := by decide
  exact h.trans h2

/-- Truncating remainder negates with its first argument. -/
lemma tmod_neg_left : ∀ (a b : Int), Int.tmod (-a) b = -Int.tmod a b
  | Int.ofNat 0, b => by simp
  | Int.ofNat (m + 1), Int.ofNat n => rfl
  | Int.ofNat (m + 1), Int.negSucc n => rfl
  | Int.negSucc m, Int.ofNat n => by
      show Int.tmod (Int.ofNat (m + 1)) (Int.ofNat n) = -Int.tmod (Int.negSucc m) (Int.ofNat n)
      simp [Int.tmod]
  | Int.negSucc m, Int.negSucc n => by
      show Int.tmod (Int.ofNat (m + 1)) (Int.negSucc n) = -Int.tmod (Int.negSucc m) (Int.negSucc n)
      simp [Int.tmod]

/-- Flooring remainder negates under simultaneous negation of both
arguments. -/
lemma fmod_neg_neg : ∀ (a b : Int), Int.fmod (-a) (-b) = -Int.fmod a b
  | Int.ofNat 0, b => by simp
  | Int.ofNat (m + 1), Int.ofNat 0 => by
      show Int.fmod (Int.negSucc m) 0 = -Int.fmod (Int.ofNat (m + 1)) 0
      simp [Int.fmod, Int.subNatNat_eq_coe]
  | Int.ofNat (m + 1), Int.ofNat (n + 1) => by
      show Int.fmod (Int.negSucc m) (Int.negSucc n) = -Int.fmod (Int.ofNat (m + 1)) (Int.ofNat (n + 1))
      simp [Int.fmod]
  | Int.ofNat (m + 1), Int.negSucc n => by
      show Int.fmod (Int.negSucc m) (Int.ofNat (n + 1)) = -Int.fmod (Int.ofNat (m + 1)) (Int.negSucc n)
      simp only [Int.fmod, Int.subNatNat_eq_coe, Nat.succ_eq_add_one]
      have h : m % (n + 1) < n + 1 := Nat.mod_lt _ (by omega)
      omega
  | Int.negSucc m, Int.ofNat 0 => by
      show Int.fmod (Int.ofNat (m + 1)) 0 = -Int.fmod (Int.negSucc m) 0
      simp [Int.fmod, Int.subNatNat_eq_coe]
  | Int.negSucc m, Int.ofNat (n + 1) => by
      show Int.fmod (Int.ofNat (m + 1)) (Int.negSucc n) = -Int.fmod (Int.negSucc m) (Int.ofNat (n + 1))
      simp only [Int.fmod, Int.subNatNat_eq_coe, Nat.succ_eq_add_one]
      have h : m % (n + 1) < n + 1 := Nat.mod_lt _ (by omega)
      omega
  | Int.negSucc m, Int.negSucc n => by
      show Int.fmod (Int.ofNat (m + 1)) (Int.ofNat (n + 1)) = -Int.fmod (Int.negSucc m) (Int.negSucc n)
      simp [Int.fmod]

/-- Euclidean remainder of a negation, in terms of the original
remainder, for a positive modulus. -/
lemma neg_emod_of_pos (l r : Int) (h : 0 < r) :
    (-l) % r = if l % r = 0 then 0 else r - l % r := by
  have h1 : l % r + r * (l / r) = l := Int.emod_add_ediv l r
  have h2 : 0 ≤ l % r := Int.emod_nonneg l (by omega)
  have h3 : l % r < r := Int.emod_lt_of_pos l h
  split
  · rename_i h0
    have hrw : -l = r * (-(l / r)) := by linear_combination h1 - h0
    rw [hrw, Int.mul_emod_right]
  · have hrw : -l = (r - l % r) + r * (-(l / r) - 1) := by linear_combination h1
    rw [hrw, Int.add_mul_emod_self_left]
    exact Int.emod_eq_of_lt (by omega) (by omega)

/-- Core of _mod for a nonzero right operand: the sign-corrected
flooring remainder is exactly the truncating remainder (PHP's rule,
sign of the left operand). -/
lemma php_mod_core_eq_tmod (l r : Int) (hr : r ≠ 0) :
    (if Int.fmod l r ≠ 0 ∧ ((l < 0 ∧ 0 < r) ∨ (0 < l ∧ r < 0)) then Int.fmod l r - r
     else Int.fmod l r) = Int.tmod l r := by
  rcases lt_trichotomy 0 r with hrp | hrz | hrn
  · -- positive modulus
    have hz : Int.fmod l r = l % r := Int.fmod_eq_emod l (le_of_lt hrp)
    rcases le_or_lt 0 l with hl | hl
    · have ht : Int.tmod l r = l % r := Int.tmod_eq_emod hl (le_of_lt hrp)
      rw [hz, ht]
      split
      · rename_i hc
        exact absurd hc (by omega)
      · rfl
    · have ht : Int.tmod l r = -((-l) % r) := by
        have := tmod_neg_left (-l) r
        rw [neg_neg] at this
        rw [this, Int.tmod_eq_emod (by omega) (le_of_lt hrp)]
      rw [hz, ht, neg_emod_of_pos l r hrp]
      have h2 : 0 ≤ l % r := Int.emod_nonneg l (by omega)
      have h3 : l % r < r := Int.emod_lt_of_pos l hrp
      split
      · rename_i hc
        rw [if_neg (by omega)]
        omega
      · rename_i hc
        rw [if_pos (by omega)]
        omega
  · exact absurd hrz.symm hr
  · -- negative modulus: reduce to the positive case via the negation rules
    have hs : 0 < -r := by omega
    have hz : Int.fmod l r = -((-l) % (-r)) := by
      have := fmod_neg_neg (-l) (-r)
      rw [neg_neg, neg_neg] at this
      rw [this, Int.fmod_eq_emod (-l) (le_of_lt hs)]
    have ht : Int.tmod l r = Int.tmod l (-r) := by
      have h5 := Int.tmod_neg l (-r)
      rw [neg_neg] at h5
      exact h5
    have h2 : 0 ≤ l % (-r) := Int.emod_nonneg l (by omega)
    have h3 : l % (-r) < -r := Int.emod_lt_of_pos l hs
    rcases le_or_lt 0 l with hl | hl
    · have ht2 : Int.tmod l (-r) = l % (-r) := Int.tmod_eq_emod hl (le_of_lt hs)
      rw [hz, ht, ht2, neg_emod_of_pos l (-r) hs]
      by_cases h0 : l % (-r) = 0
      · rw [if_pos h0, if_neg (by omega)]
        omega
      · have hl0 : l ≠ 0 := by
          rintro rfl
          exact h0 (Int.zero_emod _)
        rw [if_neg h0, if_pos ⟨by omega, Or.inr ⟨by omega, hrn⟩⟩]
        omega
    · have ht2 : Int.tmod l (-r) = -((-l) % (-r)) := by
        have h6 := tmod_neg_left (-l) (-r)
        rw [neg_neg] at h6
        rw [h6, Int.tmod_eq_emod (by omega) (le_of_lt hs)]
      rw [hz, ht, ht2]
      split
      · rename_i hc
        exact absurd hc (by omega)
      · rfl

/-- Claim C3: _mod warns "Division by zero" and returns false on a
zero right operand; returns Int 0 on right operand -1; and on every
other right operand returns the remainder truncated toward zero (sign
of the left operand), in particular mod(-7,3) = Int(-1) and
mod(7,-3) = Int(1). -/
theorem claim3_mod :
    (∀ l : Int, php_mod l 0 = (["Division by zero"], .bool false)) ∧
    (∀ l : Int, php_mod l (-1) = ([], .int 0)) ∧
    (∀ l r : Int, r ≠ 0 → php_mod l r = ([], .int (Int.tmod l r))) ∧
    php_mod (-7) 3 = ([], .int (-1)) ∧
    php_mod 7 (-3) = ([], .int 1) := by
  refine ⟨fun l => rfl, fun l => rfl, ?_, rfl, rfl⟩
  intro l r hr
  by_cases hr1 : r = -1
  · subst hr1
    have : Int.tmod l (-1) = 0 := by
      have h := Int.tmod_neg l 1
      rw [show -(1 : Int) = (-1 : Int) from rfl] at h
      rw [h, Int.tmod_one]
    simp [php_mod, this]
  · have hcore := php_mod_core_eq_tmod l r hr
    simp only [php_mod, if_neg hr, if_neg hr1, pyMod]
    rw [hcore]

/-- Witness for claim C3's theorem at concrete operands. -/
theorem claim3_mod_witness : php_mod (-7) 3 = ([], .int (Int.tmod (-7) 3)) := by
  have h := claim3_mod.2.2.1 (-7) 3 (by decide)
  exact h

/-- Byte-wise OR of bytes is commutative. -/
lemma byteOr_comm (a b : Char) : byteOr a b = byteOr b a := by
  unfold byteOr
  rw [Nat.lor_comm]

/-- Claim C5: string OR works byte-wise over the common overlap and
preserves the longer side's tail, so its length is the longer length
and or_string("AB","abcd") = "abcd"; string AND and XOR truncate to
the shorter length. -/
theorem claim5_string_bitwise :
    or_string "AB" "abcd" = "abcd" ∧
    (∀ a b : String,
      or_string a b =
        String.mk (List.zipWith byteOr a.data b.data ++
          (if a.length < b.length then b.data else a.data).drop (min a.length b.length))) ∧
    (∀ a b : String, (or_string a b).length = max a.length b.length) ∧
    (∀ a b : String, (and_string a b).length = min a.length b.length) ∧
    (∀ a b : String, (xor_string a b).length = min a.length b.length) := by
  have heq : ∀ a b : String,
      or_string a b =
        String.mk (List.zipWith byteOr a.data b.data ++
          (if a.length < b.length then b.data else a.data).drop (min a.length b.length)) := by
    intro a b
    unfold or_string
    by_cases h : a.length < b.length
    · rw [if_pos h, if_pos h, List.zipWith_comm_of_comm byteOr byteOr_comm,
        min_eq_left (le_of_lt h)]
    · rw [if_neg h, if_neg h, min_eq_right (le_of_not_lt h)]
  refine ⟨by decide, heq, ?_, ?_, ?_⟩
  · intro a b
    rw [heq a b]
    show (List.zipWith byteOr a.data b.data ++
      (if a.length < b.length then b.data else a.data).drop (min a.length b.length)).length =
      max a.length b.length
    rw [List.length_append, List.length_zipWith, List.length_drop]
    have hl : a.length = a.data.length := rfl
    have hr : b.length = b.data.length := rfl
    by_cases h : a.length < b.length
    · rw [if_pos h]
      omega
    · rw [if_neg h]
      omega
  · intro a b
    show (List.zipWith byteAnd a.data b.data).length = min a.length b.length
    rw [List.length_zipWith]
    rfl
  · intro a b
    show (List.zipWith byteXor a.data b.data).length = min a.length b.length
    rw [List.length_zipWith]
    rfl

/-- Congruence of masking: reducing the count mod the word width first
does not change the masked count. -/
lemma pyMaskAnd_emod (is32 : Bool) (n : Int) :
    pyMaskAnd (n % (wordW is32 : Int)) (MASK_31_63 is32) = pyMaskAnd n (MASK_31_63 is32) := by
  cases is32 <;>
    simp only [pyMaskAnd, MASK_31_63, wordW, Bool.false_eq_true, if_false, if_true,
      Nat.cast_ofNat] <;>
    norm_num

/-- Range of the machine-word truncation. -/
lemma intmask_bounds (w : Nat) (hw : 0 < w) (z : Int) :
    -(2 ^ (w - 1) : Int) ≤ intmask w z ∧ intmask w z < (2 ^ (w - 1) : Int) := by
  unfold intmask
  have hpow : (0 : Int) < 2 ^ w := by positivity
  have h1 : 0 ≤ (z + 2 ^ (w - 1)) % 2 ^ w := Int.emod_nonneg _ (by omega)
  have h2 : (z + 2 ^ (w - 1)) % 2 ^ w < 2 ^ w := Int.emod_lt_of_pos _ hpow
  have h3 : (2 : Int) ^ w = 2 ^ (w - 1) * 2 := by
    rw [← pow_succ]
    congr 1
    omega
  omega

/-- Claim C6: the shift count is masked with 31 or 63 (word width 32
or 64), so shifting by n equals shifting by n mod W, and the result is
truncated to the signed machine word range. -/
theorem claim6_shift_masking :
    ∀ (is32 : Bool) (x n : Int),
      lshift is32 x n = lshift is32 x (n % (wordW is32 : Int)) ∧
      rshift is32 x n = rshift is32 x (n % (wordW is32 : Int)) ∧
      -(2 ^ (wordW is32 - 1) : Int) ≤ lshift is32 x n ∧
      lshift is32 x n < (2 ^ (wordW is32 - 1) : Int) ∧
      -(2 ^ (wordW is32 - 1) : Int) ≤ rshift is32 x n ∧
      rshift is32 x n < (2 ^ (wordW is32 - 1) : Int) := by
  intro is32 x n
  have hw : 0 < wordW is32 := by cases is32 <;> simp [wordW]
  refine ⟨?_, ?_, (intmask_bounds _ hw _).1, (intmask_bounds _ hw _).2,
    (intmask_bounds _ hw _).1, (intmask_bounds _ hw _).2⟩
  · unfold lshift
    rw [pyMaskAnd_emod]
  · unfold rshift
    rw [pyMaskAnd_emod]

/-- Renumbering lemma for the slice loop: without any key
preservation, the loop emits exactly the kept values keyed by
consecutive integers from the running counter. -/
lemma slice_renumber (s sh : Int) :
    ∀ (l : List (PKey × Value)) (idx next : Int),
      sliceRec s sh false false l idx next = renumberFrom next (keptRec s sh l idx) := by
  intro l
  induction l with
  | nil => intro idx next; rfl
  | cons e rest ih =>
    intro idx next
    obtain ⟨k, v⟩ := e
    by_cases h : s ≤ idx ∧ idx < s + sh
    · simp only [sliceRec, keptRec, if_pos h, if_neg (Bool.false_ne_true), renumberFrom]
      rw [ih]
    · simp only [sliceRec, keptRec, if_neg h]
      exact ih (idx + 1) next

/-- Claim C7: slice with a negative start counts from the end, so
slice([10,20,30,40], -2, 1) without key preservation keeps exactly the
value 30 under integer key 0; and in general, without key
preservation, slice returns the kept values renumbered from 0 in
insertion order. -/
theorem claim7_slice_negative_start :
    phpSlice [(.int 0, .int 10), (.int 1, .int 20), (.int 2, .int 30), (.int 3, .int 40)]
      (-2) 1 false false = [(.int 0, .int 30)] ∧
    (∀ (arr : List (PKey × Value)) (start shift : Int),
      phpSlice arr start shift false false = renumberFrom 0 (sliceKeptValues arr start shift)) := by
  refine ⟨rfl, ?_⟩
  intro arr start shift
  unfold phpSlice sliceKeptValues
  by_cases h1 : shift = 0
  · rw [if_pos h1, if_pos h1]
    rfl
  · rw [if_neg h1, if_neg h1]
    by_cases h2 : arr.length = 0
    · rw [if_pos h2, if_pos h2]
      rfl
    · rw [if_neg h2, if_neg h2]
      by_cases h3 : (arr.length : Int) < start
      · rw [if_pos h3, if_pos h3]
        rfl
      · rw [if_neg h3, if_neg h3]
        exact slice_renumber _ _ arr 0 0

/-- Claim C10: an array callback whose length is not exactly two makes
_get_callback raise InvalidCallback with "array must have exactly two
members" whatever its elements are, and get_callback then returns the
null invocable, emitting the PHP-style warning exactly when
give_warning is set. -/
theorem claim10_callback_pair_arity :
    ∀ (h : CallbackHost) (σ : Store) (id : Nat) (es : List (PKey × Value)),
      es.length ≠ 2 →
      get_callback_inner h σ (.arr id es) = .error "array must have exactly two members" ∧
      (∀ (fname : String) (argNo : Int),
        get_callback h σ fname argNo (.arr id es) true =
          (none, [fname ++ "() expects parameter " ++ toString argNo ++
                  " to be a valid callback, " ++ "array must have exactly two members"]) ∧
        get_callback h σ fname argNo (.arr id es) false = (none, [])) := by
  intro h σ id es hlen
  have hinner : get_callback_inner h σ (.arr id es) =
      .error "array must have exactly two members" := by
    simp [get_callback_inner, tpOf, entriesOf, hlen]
  exact ⟨hinner, fun fname argNo => by
    constructor <;> simp [get_callback, hinner]⟩

/-- Witness for claim C10's theorem at the empty array. -/
theorem claim10_callback_pair_arity_witness :
    get_callback ⟨fun _ => none, fun _ _ => .error "", fun _ _ => .error "",
        fun _ => none, fun _ => ""⟩ (fun _ => .null) "f" 1 (.arr 0 []) true =
      (none,
       ["f() expects parameter 1 to be a valid callback, array must have exactly two members"]) := by
  have h := ((claim10_callback_pair_arity
    ⟨fun _ => none, fun _ _ => .error "", fun _ _ => .error "", fun _ => none, fun _ => ""⟩
    (fun _ => .null) 0 [] (by simp)).2 "f" 1).1
  exact h.trans (by rfl)

/-- Dereferencing is stable once the deref'd value is not itself a
reference (invariant: reference cells never hold references). -/
lemma deref_stable (σ : Store) (v : Value) (h : isRefV (deref σ v) = false) :
    deref σ (deref σ v) = deref σ v := by
  cases hd : deref σ v
  · rfl
  · rfl
  · rfl
  · rfl
  · rfl
  · rfl
  · rfl
  · rw [hd] at h
    simp [isRefV] at h

/-- Comparison depends only on the deref'd operands, as long as those
are deref-stable. -/
lemma phpRun_cmp_congr (σ : Store) (n : Nat) (l r : Value) (s io : Bool)
    (hl : deref σ (deref σ l) = deref σ l) (hr : deref σ (deref σ r) = deref σ r) :
    phpRun σ (n + 1) (.cmp l r s io) = phpRun σ (n + 1) (.cmp (deref σ l) (deref σ r) s io) := by
  simp only [phpRun, hl, hr]

/-- Reflexivity core: loose self-comparison of a non-reference,
non-NaN value returns 0 with two units of fuel to spare for the
numeric-string promotion. -/
lemma cmp_refl_core (σ : Store) (fuel : Nat) (w : Value)
    (h1 : isNaNV w = false) (h2 : isRefV w = false) :
    phpRun σ (fuel + 2) (.cmp w w false false) = some 0 := by
  cases w with
  | int i => simp [phpRun, deref, tpOf, int_w, my_cmp]
  | float f =>
    cases f with
    | fin q => simp [phpRun, deref, tpOf, float_w, pfloatEq, my_cmp]
    | pinf => simp [phpRun, deref, tpOf, float_w, pfloatEq, my_cmp]
    | ninf => simp [phpRun, deref, tpOf, float_w, pfloatEq, my_cmp]
    | nan => simp [isNaNV] at h1
  | str s =>
    by_cases hlen : (s.length == 1) = true
    · simp [phpRun, deref, tpOf, str_w, hlen, my_cmp]
    · rcases hp : convert_string_to_number s with ⟨n, valid⟩
      cases valid
      · simp [phpRun, deref, tpOf, str_w, hlen, hp, my_cmp]
      · cases n with
        | int i =>
          simp [phpRun, deref, tpOf, str_w, hlen, hp, numToValue, int_w, my_cmp]
        | flt q =>
          simp [phpRun, deref, tpOf, str_w, hlen, hp, numToValue, float_w, pfloatEq, my_cmp]
  | bool b => simp [phpRun, deref, tpOf, is_true, my_cmp]
  | null => simp [phpRun, deref, tpOf]
  | arr id es => simp [phpRun, deref, tpOf, phpIs]
  | obj id cls attrs => simp [phpRun, deref, tpOf, phpIs]
  | ref a => simp [isRefV] at h2

/-- Claim C4: the comparator is reflexive - for every value whose
deref is not a Float NaN (strings, booleans, null, ints, floats,
arrays, objects, and references to any of those),
compare(v, v) returns 0. -/
theorem claim4_compare_reflexive (σ : Store) (fuel : Nat) (v : Value)
    (h1 : isNaNV (deref σ v) = false) (h2 : isRefV (deref σ v) = false) :
    phpCompare σ (fuel + 2) v v false false = some 0 := by
  have hs := deref_stable σ v h2
  show phpRun σ (fuel + 1 + 1) (.cmp v v false false) = some 0
  rw [phpRun_cmp_congr σ (fuel + 1) v v false false hs hs]
  exact cmp_refl_core σ fuel (deref σ v) h1 h2

/-- Witness for claim C4's theorem at a concrete numeric string. -/
theorem claim4_compare_reflexive_witness :
    phpCompare (fun _ => .null) 2 (.str "10") (.str "10") false false = some 0 :=
  claim4_compare_reflexive (fun _ => .null) 0 (.str "10") rfl rfl

end Hippy
